import Mathlib

/-!
Verification of the provider-configuration resolver of `django-saml2-pro-auth`
(`src/saml2_pro_auth/models.py`, `SamlProvider.get_provider_config`).

Python dictionaries that only ever hold string/bool/list-of-string/dict values
are embedded as association lists over an inductive value type `JVal`.  Lookup
(`dlookup`), item assignment (`dset`) and the `\x7b**a, **b\x7d` spread-merge
(`dictUnion`) follow Python's insertion-order semantics.  A separate heap-based
model (further below) is used for the frame property about `deepcopy`.
-/

set_option autoImplicit false

namespace Saml2ProAuth

/-- Values stored in the configuration dictionaries produced by
`get_provider_config`: strings, booleans, lists of certificate texts, and
nested dictionaries. -/
inductive JVal where
  | s (v : String)
  | b (v : Bool)
  | strs (v : List String)
  | d (entries : List (String × JVal))
  deriving Repr

/-- A Python dict with string keys, as an insertion-ordered association list. -/
abbrev PyDict := List (String × JVal)

/-- Lookup of a key in an association list (Python `d[k]` / `k in d`),
returning the first binding. -/
def dlookup {α : Type} : List (String × α) → String → Option α
  | [], _ => none
  | (k', v) :: rest, k => if k' = k then some v else dlookup rest k

/-- Python `d[k] = v`: replace the value at the first occurrence of `k`
in place, or append a new binding when the key is absent. -/
def dset {α : Type} (d : List (String × α)) (k : String) (v : α) : List (String × α) :=
  if (dlookup d k).isSome then
    d.map (fun kv => if kv.1 = k then (k, v) else kv)
  else
    d ++ [(k, v)]

/-- Binding of a left-dict key after a `\x7b**a, **b\x7d` merge: overridden
by `b`'s value when `b` also binds the key. -/
def overrideEntry {α : Type} (b : List (String × α)) (kv : String × α) : String × α :=
  match dlookup b kv.1 with
  | some v => (kv.1, v)
  | none => kv

/-- Python `\x7b**a, **b\x7d`: the keys of `a` in order with values overridden
by `b` where present, followed by the keys of `b` that are not in `a`, in
`b`'s order. -/
def dictUnion {α : Type} (a b : List (String × α)) : List (String × α) :=
  a.map (overrideEntry b) ++ b.filter (fun kv => (dlookup a kv.1).isNone)

/-- Python `\x7b**v\x7d` requires `v` to be a mapping; anything else raises
`TypeError`, modelled as `none`. -/
def asDict : JVal → Option PyDict
  | .d entries => some entries
  | _ => none

/-- The fields of the `SamlProvider` Django model that
`get_provider_config` reads.  The two certificate lists stand for
`values_list("certificate", flat=True)` over the respective many-to-many
relations (the `attributes` JSON field is not read by the resolver and is
omitted). -/
structure SamlProvider where
  idp_issuer : String
  idp_sso_url : String
  idp_sso_binding : String
  nameidformat : String
  sp_acs_binding : String
  debug : Bool
  lowercase_urlencoding : Bool
  idp_initiated_auth : Bool
  sec_want_messages_signed : Bool
  sec_want_assertions_signed : Bool
  sec_want_assertions_encrypted : Bool
  signing_certs : List String
  encryption_certs : List String
  deriving Repr

/-- Line 139-148: `certs = dict(encryption=list(...), signing=list(...))`.
Keyword-argument order gives insertion order `encryption`, `signing`. -/
def certs (p : SamlProvider) : List (String × List String) :=
  [("encryption", p.encryption_certs), ("signing", p.signing_certs)]

/-- Python `k in certs`. -/
def hasKey (cs : List (String × List String)) (k : String) : Bool :=
  (dlookup cs k).isSome

/-- Python `certs[k]` (with `[]` as junk value for a missing key; every use
in the source is guarded by `k in certs`). -/
def certVal (cs : List (String × List String)) (k : String) : List String :=
  (dlookup cs k).getD []

/-- First disjunct of the guard at lines 153-158:
`len(certs) == 1 and (("signing" in certs and len(certs["signing"]) == 1)
or ("encryption" in certs and len(certs["encryption"]) == 1))`. -/
def condA (cs : List (String × List String)) : Bool :=
  decide (cs.length = 1) &&
    ((hasKey cs "signing" && decide ((certVal cs "signing").length = 1)) ||
     (hasKey cs "encryption" && decide ((certVal cs "encryption").length = 1)))

/-- Second disjunct of the guard at lines 159-166:
`("signing" in certs and len(certs["signing"]) == 1) and ("encryption" in
certs and len(certs["encryption"]) == 1 and certs["signing"][0] ==
certs["encryption"][0])`. -/
def condB (cs : List (String × List String)) : Bool :=
  (hasKey cs "signing" && decide ((certVal cs "signing").length = 1)) &&
    (hasKey cs "encryption" && decide ((certVal cs "encryption").length = 1) &&
      decide ((certVal cs "signing").getD 0 "" = (certVal cs "encryption").getD 0 ""))

/-- Lines 150-172: the `idp_certificates` dict.  The branch taken when the
guard holds indexes `certs["signing"][0]` (or `certs["encryption"][0]`),
which would raise `IndexError` on an empty list, modelled as `none`.  The
`certs is not None` test at line 152 is always true for the dict literal
built at line 139 and is dropped.  In the `else` branch the whole `certs`
dict becomes the value of `x509certMulti`. -/
def idpCertificates (p : SamlProvider) : Option PyDict :=
  if condA (certs p) || condB (certs p) then
    if hasKey (certs p) "signing" then
      match certVal (certs p) "signing" with
      | c :: _ => some [("x509cert", .s c)]
      | [] => none
    else
      match certVal (certs p) "encryption" with
      | c :: _ => some [("x509cert", .s c)]
      | [] => none
  else
    some [("x509certMulti",
           .d [("encryption", .strs p.encryption_certs),
               ("signing", .strs p.signing_certs)])]

/-- The three bindings overlaid onto the defaults' `sp` sub-dict
(lines 186-193). -/
def spOverlay (p : SamlProvider) : PyDict :=
  [("entityId", .s ""),
   ("NameIDFormat", .s p.nameidformat),
   ("assertionConsumerService",
    .d [("url", .s ""), ("binding", .s p.sp_acs_binding)])]

/-- The three bindings overlaid onto the defaults' `security` sub-dict
(lines 197-201). -/
def securityOverlay (p : SamlProvider) : PyDict :=
  [("wantMessagesSigned", .b p.sec_want_messages_signed),
   ("wantAssertionsSigned", .b p.sec_want_assertions_signed),
   ("wantAssertionsEncrypted", .b p.sec_want_assertions_encrypted)]

/-- Lines 174-208 of `models.py`, value-level.  `config = deepcopy(defaults)`
makes the copy whose `sp`/`security` sub-objects seed the overlays;
`config.setdefault("sp", dict())` yields the existing value or an empty
dict, and the `\x7b**...\x7d` spread raises `TypeError` (here `none`) if that
value is not a dict.  The final three statements are in-place item
assignments on the freshly built top-level dict. -/
def get_provider_config (p : SamlProvider) (defaults : PyDict) : Option PyDict :=
  match idpCertificates p with
  | none => none
  | some ic =>
    let idpSection :=
      dictUnion
        [("entityId", .s p.idp_issuer),
         ("singleSignOnService",
          .d [("url", .s p.idp_sso_url), ("binding", .s p.idp_sso_binding)])]
        ic
    match asDict ((dlookup defaults "sp").getD (.d [])) with
    | none => none
    | some spBase =>
      let spSection := dictUnion spBase (spOverlay p)
      match asDict ((dlookup defaults "security").getD (.d [])) with
      | none => none
      | some secBase =>
        let secSection := dictUnion secBase (securityOverlay p)
        let config : PyDict :=
          [("idp", .d idpSection), ("sp", .d spSection), ("security", .d secSection)]
        let config := dset config "debug" (.b p.debug)
        let config := dset config "lowercase_urlencoding" (.b p.lowercase_urlencoding)
        let config := dset config "idp_initiated_auth" (.b p.idp_initiated_auth)
        some config

/-!
Heap model for the frame property of claim C4.  Python dictionaries are
mutable objects; `config = deepcopy(defaults)` versus an alias is the whole
content of the claim, so here dict objects live in an explicit heap of
addressed cells and each statement of `get_provider_config` is mirrored as
an operation on that heap.  Python lists are never mutated by the function
and are modelled as immutable values.
-/

/-- Runtime values of the heap model: strings, booleans, immutable lists of
certificate texts, and references to dict objects in the heap. -/
inductive PyVal where
  | vstr (s : String)
  | vbool (b : Bool)
  | vstrs (l : List String)
  | vref (a : Nat)
  deriving Repr, DecidableEq

/-- A dict object's contents: insertion-ordered key/value bindings. -/
abbrev HDict := List (String × PyVal)

/-- The heap: dict objects addressed by position. -/
abbrev Heap := List HDict

/-- Read the dict object at an address. -/
def heapGet (H : Heap) (a : Nat) : Option HDict := H[a]?

/-- Overwrite the dict object at an address (no-op when out of range). -/
def heapSet (H : Heap) (a : Nat) (d : HDict) : Heap := H.set a d

/-- Allocate a fresh dict object, returning the new heap and its address. -/
def heapAlloc (H : Heap) (d : HDict) : Heap × Nat := (H ++ [d], H.length)

/-- Recursive copy of a value (`inl`) or of a list of dict entries (`inr`),
allocating fresh objects for every dict reachable from the argument — the
semantics of Python's `copy.deepcopy` on an acyclic object graph.  The fuel
bounds the recursion depth; `none` means the fuel ran out or a reference
dangled. -/
def dcopy : Nat → Heap → PyVal ⊕ HDict → Option (Heap × (PyVal ⊕ HDict))
  | _, H, .inl (.vstr s) => some (H, .inl (.vstr s))
  | _, H, .inl (.vbool b) => some (H, .inl (.vbool b))
  | _, H, .inl (.vstrs l) => some (H, .inl (.vstrs l))
  | _, H, .inr [] => some (H, .inr [])
  | 0, _, _ => none
  | n + 1, H, .inl (.vref a) =>
    match heapGet H a with
    | none => none
    | some d =>
      match dcopy n H (.inr d) with
      | some (H1, .inr d1) => some (H1 ++ [d1], .inl (.vref H1.length))
      | _ => none
  | n + 1, H, .inr ((k, v) :: rest) =>
    match dcopy n H (.inl v) with
    | some (H1, .inl v1) =>
      match dcopy n H1 (.inr rest) with
      | some (H2, .inr rest1) => some (H2, .inr ((k, v1) :: rest1))
      | _ => none
    | _ => none

/-- `copy.deepcopy` of a single value. -/
def deepcopyVal (n : Nat) (H : Heap) (v : PyVal) : Option (Heap × PyVal) :=
  match dcopy n H (.inl v) with
  | some (H1, .inl v1) => some (H1, v1)
  | _ => none

/-- Pure snapshot of the object graph reachable from a value: what a deep
structural-equality check of a Python object observes. -/
inductive Tree where
  | tstr (s : String)
  | tbool (b : Bool)
  | tstrs (l : List String)
  | tdict (entries : List (String × Tree))
  deriving Repr

/-- Wrap a read-back dict-entry list as a dict snapshot. -/
def tagDict (rd : Tree ⊕ List (String × Tree)) : Option (Tree ⊕ List (String × Tree)) :=
  match rd with
  | .inr ts => some (.inl (.tdict ts))
  | _ => none

/-- Prepend a read-back entry to a read-back entry list. -/
def consEntry (k : String) (rv rr : Tree ⊕ List (String × Tree)) :
    Option (Tree ⊕ List (String × Tree)) :=
  match rv, rr with
  | .inl t, .inr ts => some (.inr ((k, t) :: ts))
  | _, _ => none

/-- Read back the object graph under a value (`inl`) or a list of dict
entries (`inr`) as a pure `Tree`, with fuel bounding the depth. -/
def rback : Nat → Heap → PyVal ⊕ HDict → Option (Tree ⊕ List (String × Tree))
  | _, _, .inl (.vstr s) => some (.inl (.tstr s))
  | _, _, .inl (.vbool b) => some (.inl (.tbool b))
  | _, _, .inl (.vstrs l) => some (.inl (.tstrs l))
  | _, _, .inr [] => some (.inr [])
  | 0, _, _ => none
  | n + 1, H, .inl (.vref a) =>
    (heapGet H a).bind fun d => (rback n H (.inr d)).bind tagDict
  | n + 1, H, .inr ((k, v) :: rest) =>
    (rback n H (.inl v)).bind fun rv =>
      (rback n H (.inr rest)).bind fun rr => consEntry k rv rr

/-- Snapshot of a single value. -/
def readbackVal (n : Nat) (H : Heap) (v : PyVal) : Option Tree :=
  match rback n H (.inl v) with
  | some (.inl t) => some t
  | _ => none

/-- Python `d.setdefault(k, v)` on the dict object at address `a`: return
the existing value, or bind `k` to `v` (mutating the object) and return
`v`. -/
def setdefaultH (H : Heap) (a : Nat) (k : String) (v : PyVal) : Option (Heap × PyVal) :=
  match heapGet H a with
  | none => none
  | some d =>
    match dlookup d k with
    | some v0 => some (H, v0)
    | none => some (heapSet H a (d ++ [(k, v)]), v)

/-- Python `d[k] = v` on the dict object at address `a`. -/
def setItemH (H : Heap) (a : Nat) (k : String) (v : PyVal) : Option Heap :=
  match heapGet H a with
  | none => none
  | some d => some (heapSet H a (dset d k v))

/-- Lines 135-208 of `models.py` in the heap model.  `defaults` is the dict
object at `dAddr`; the result is the final heap and the address of the
returned `config` object.  The certificate-branch conditions reuse
`condA`/`condB`/`hasKey`/`certVal` verbatim; all other statements are
mirrored in source order: allocate `certs` and `idp_certificates`, run the
conditional item assignment, `deepcopy` the defaults, evaluate the
`dict(idp=..., sp=..., security=...)` display (allocating the nested dicts
and running the two `setdefault` calls on the copy), then perform the three
trailing item assignments on the freshly built top-level dict. -/
def get_provider_config_heap (p : SamlProvider) (fuel : Nat) (H0 : Heap)
    (dAddr : Nat) : Option (Heap × Nat) :=
  let certsObj : HDict :=
    [("encryption", .vstrs p.encryption_certs), ("signing", .vstrs p.signing_certs)]
  let h1p := heapAlloc H0 certsObj
  let h2p := heapAlloc h1p.1 []
  let branch : Option Heap :=
    if condA (certs p) || condB (certs p) then
      if hasKey (certs p) "signing" then
        match certVal (certs p) "signing" with
        | c :: _ => setItemH h2p.1 h2p.2 "x509cert" (.vstr c)
        | [] => none
      else
        match certVal (certs p) "encryption" with
        | c :: _ => setItemH h2p.1 h2p.2 "x509cert" (.vstr c)
        | [] => none
    else
      setItemH h2p.1 h2p.2 "x509certMulti" (.vref h1p.2)
  match branch with
  | none => none
  | some h3 =>
    match deepcopyVal fuel h3 (.vref dAddr) with
    | some (h4, .vref cAddr) =>
      let h5p := heapAlloc h4
        [("url", .vstr p.idp_sso_url), ("binding", .vstr p.idp_sso_binding)]
      match heapGet h5p.1 h2p.2 with
      | none => none
      | some ic =>
        let h6p := heapAlloc h5p.1
          (dictUnion
            [("entityId", .vstr p.idp_issuer), ("singleSignOnService", .vref h5p.2)] ic)
        let h7p := heapAlloc h6p.1 []
        match setdefaultH h7p.1 cAddr "sp" (.vref h7p.2) with
        | some (h8, .vref spBaseAddr) =>
          match heapGet h8 spBaseAddr with
          | none => none
          | some spBase =>
            let h9p := heapAlloc h8
              [("url", .vstr ""), ("binding", .vstr p.sp_acs_binding)]
            let h10p := heapAlloc h9p.1
              (dictUnion spBase
                [("entityId", .vstr ""), ("NameIDFormat", .vstr p.nameidformat),
                 ("assertionConsumerService", .vref h9p.2)])
            let h11p := heapAlloc h10p.1 []
            match setdefaultH h11p.1 cAddr "security" (.vref h11p.2) with
            | some (h12, .vref secBaseAddr) =>
              match heapGet h12 secBaseAddr with
              | none => none
              | some secBase =>
                let h13p := heapAlloc h12
                  (dictUnion secBase
                    [("wantMessagesSigned", .vbool p.sec_want_messages_signed),
                     ("wantAssertionsSigned", .vbool p.sec_want_assertions_signed),
                     ("wantAssertionsEncrypted", .vbool p.sec_want_assertions_encrypted)])
                let h14p := heapAlloc h13p.1
                  [("idp", .vref h6p.2), ("sp", .vref h10p.2), ("security", .vref h13p.2)]
                match setItemH h14p.1 h14p.2 "debug" (.vbool p.debug) with
                | none => none
                | some h15 =>
                  match setItemH h15 h14p.2 "lowercase_urlencoding"
                      (.vbool p.lowercase_urlencoding) with
                  | none => none
                  | some h16 =>
                    match setItemH h16 h14p.2 "idp_initiated_auth"
                        (.vbool p.idp_initiated_auth) with
                    | none => none
                    | some h17 => some (h17, h14p.2)
            | _ => none
        | _ => none
    | _ => none

/-- Heap extension: the second heap is at least as long as the first and
agrees with it on the first `m` cells.  Every step of the heap-model
builder extends the heap in this sense with `m` the length of the starting
heap, because every mutation hits an address allocated during the call. -/
def HExt (m : Nat) (H1 H2 : Heap) : Prop :=
  H1.length ≤ H2.length ∧ ∀ i, i < m → H2[i]? = H1[i]?

/-!
Concrete records used to exercise the definitions: the provider of the
spec's scenario A (one signing certificate, no encryption certificates)
and variants, together with a small defaults template.
-/

/-- Scenario A provider: one signing certificate, no encryption
certificates. -/
def providerA : SamlProvider :=
  { idp_issuer := "https://idp.example/metadata"
    idp_sso_url := "https://idp.example/sso"
    idp_sso_binding := "HTTP-POST"
    nameidformat := "unspecified"
    sp_acs_binding := "HTTP-POST"
    debug := false
    lowercase_urlencoding := false
    idp_initiated_auth := false
    sec_want_messages_signed := true
    sec_want_assertions_signed := false
    sec_want_assertions_encrypted := false
    signing_certs := ["CERTA"]
    encryption_certs := [] }

/-- Scenario B provider: the same certificate in both roles. -/
def providerB : SamlProvider := { providerA with encryption_certs := ["CERTA"] }

/-- Scenario C provider: two signing certificates, no encryption
certificates. -/
def providerC : SamlProvider := { providerA with signing_certs := ["CERTA", "CERTB"] }

/-- A small defaults template with `sp` and `security` sub-dicts and an
extra top-level key. -/
def defaultsW : PyDict :=
  [("sp", .d [("keep", .s "v")]),
   ("security", .d [("authnRequestsSigned", .b true)]),
   ("strict", .b true)]

/-- The builder's output for scenario A on `defaultsW` (defaulted away from
`none`; the run succeeds, as the C1 theorem shows). -/
def cfgA : PyDict := (get_provider_config providerA defaultsW).getD []

/-- The builder's output for scenario B on `defaultsW`. -/
def cfgB : PyDict := (get_provider_config providerB defaultsW).getD []

/-- The builder's output for scenario C on `defaultsW`. -/
def cfgC : PyDict := (get_provider_config providerC defaultsW).getD []

/-- A heap holding a defaults template at address 0 whose `sp` value is the
dict object at address 1. -/
def heapW : Heap := [[("sp", .vref 1), ("keep", .vstr "v")], [("x", .vstr "y")]]

/-- The snapshot of the defaults object of `heapW`. -/
def treeW : Tree := .tdict [("sp", .tdict [("x", .tstr "y")]), ("keep", .tstr "v")]

/-- The run of the heap-model builder on `heapW` (defaulted away from
`none`; the run does succeed, as the C4 witness shows). -/
def runW : Heap × Nat := (get_provider_config_heap providerA 20 heapW 0).getD ([], 0)

/-!
Lemmas about `dlookup`, `dset` and `dictUnion`.
-/

theorem dlookup_append_some {α : Type} {a : List (String × α)} (b : List (String × α))
    {k : String} {v : α} (h : dlookup a k = some v) : dlookup (a ++ b) k = some v := by
  induction a with
  | nil => simp [dlookup] at h
  | cons kv rest ih =>
    obtain ⟨k', v'⟩ := kv
    by_cases hk : k' = k
    · simp [dlookup, hk] at h ⊢
      exact h
    · simp only [List.cons_append, dlookup, hk, if_false] at h ⊢
      exact ih h

theorem dlookup_append_none {α : Type} {a : List (String × α)} (b : List (String × α))
    {k : String} (h : dlookup a k = none) : dlookup (a ++ b) k = dlookup b k := by
  induction a with
  | nil => rfl
  | cons kv rest ih =>
    obtain ⟨k', v'⟩ := kv
    by_cases hk : k' = k
    · simp [dlookup, hk] at h
    · simp only [List.cons_append, dlookup, hk, if_false] at h ⊢
      exact ih h

theorem dlookup_map_override {α : Type} (a b : List (String × α)) (k : String) :
    dlookup (a.map (overrideEntry b)) k
      = (dlookup a k).map (fun v => (dlookup b k).getD v) := by
  induction a with
  | nil => rfl
  | cons kv rest ih =>
    obtain ⟨k', v'⟩ := kv
    by_cases h : k' = k
    · subst h
      cases hb : dlookup b k' <;>
        simp [dlookup, overrideEntry, hb]
    · cases hb : dlookup b k' <;>
        simp [dlookup, overrideEntry, h, ih, hb]

theorem dlookup_filter_of_holds {α : Type} (b : List (String × α))
    (P : String × α → Bool) (k : String) (hk : ∀ v, P (k, v) = true) :
    dlookup (b.filter P) k = dlookup b k := by
  induction b with
  | nil => rfl
  | cons kv rest ih =>
    obtain ⟨k', v'⟩ := kv
    by_cases h : k' = k
    · subst h
      rw [List.filter_cons, hk v']
      simp [dlookup]
    · rw [List.filter_cons]
      cases hp : P (k', v') <;> simp [dlookup, h, ih]

theorem dlookup_filter_of_none {α : Type} (b : List (String × α))
    (P : String × α → Bool) {k : String} (h : dlookup b k = none) :
    dlookup (b.filter P) k = none := by
  induction b with
  | nil => rfl
  | cons kv rest ih =>
    obtain ⟨k', v'⟩ := kv
    by_cases hk : k' = k
    · simp [dlookup, hk] at h
    · simp only [dlookup, hk, if_false] at h
      rw [List.filter_cons]
      cases hp : P (k', v') <;> simp [dlookup, hk, ih h]

/-- A key bound in `b` comes out of `\x7b**a, **b\x7d` with `b`'s value. -/
theorem dlookup_dictUnion_right {a b : PyDict} {k : String} {v : JVal}
    (h : dlookup b k = some v) : dlookup (dictUnion a b) k = some v := by
  unfold dictUnion
  cases ha : dlookup a k with
  | some w =>
    apply dlookup_append_some
    rw [dlookup_map_override, ha, h]
    rfl
  | none =>
    rw [dlookup_append_none]
    · rw [dlookup_filter_of_holds]
      · exact h
      · intro v'
        simp [ha]
    · rw [dlookup_map_override, ha]
      rfl

/-- A key not bound in `b` comes out of `\x7b**a, **b\x7d` exactly as from
`a`. -/
theorem dlookup_dictUnion_left {a b : PyDict} {k : String}
    (h : dlookup b k = none) : dlookup (dictUnion a b) k = dlookup a k := by
  unfold dictUnion
  cases ha : dlookup a k with
  | some w =>
    apply dlookup_append_some
    rw [dlookup_map_override, ha, h]
    rfl
  | none =>
    have hm : dlookup (a.map (overrideEntry b)) k = none := by
      rw [dlookup_map_override, ha]
      rfl
    rw [dlookup_append_none _ hm, dlookup_filter_of_none _ _ h]

/-!
Facts about the certificate-selection branch of lines 150-172.
-/

/-- The `certs` dict literal of line 139 always carries both keys, so the
`len(certs) == 1` disjunct of the guard is false for every provider. -/
theorem condA_certs_false (p : SamlProvider) : condA (certs p) = false := by
  simp [condA, certs]

theorem hasKey_signing (p : SamlProvider) : hasKey (certs p) "signing" = true := by
  simp [hasKey, certs, dlookup]

theorem hasKey_encryption (p : SamlProvider) : hasKey (certs p) "encryption" = true := by
  simp [hasKey, certs, dlookup]

theorem certVal_signing (p : SamlProvider) :
    certVal (certs p) "signing" = p.signing_certs := by
  simp [certVal, certs, dlookup]

theorem certVal_encryption (p : SamlProvider) :
    certVal (certs p) "encryption" = p.encryption_certs := by
  simp [certVal, certs, dlookup]

/-- The second disjunct of the guard holds exactly when both lists hold one
certificate and the two texts coincide. -/
theorem condB_iff (p : SamlProvider) :
    condB (certs p) = true ↔
      p.signing_certs.length = 1 ∧ p.encryption_certs.length = 1 ∧
        p.signing_certs.getD 0 "" = p.encryption_certs.getD 0 "" := by
  rw [condB, hasKey_signing, hasKey_encryption, certVal_signing, certVal_encryption]
  simp [and_assoc]

/-- In the shared single-certificate case the branch emits `x509cert`. -/
theorem idpCertificates_of_single (p : SamlProvider) (c : String)
    (hs : p.signing_certs = [c]) (he : p.encryption_certs = [c]) :
    idpCertificates p = some [("x509cert", .s c)] := by
  have hB : condB (certs p) = true := by
    rw [condB_iff]
    simp [hs, he]
  rw [idpCertificates, condA_certs_false, hB, hasKey_signing, certVal_signing, hs]
  simp

/-- When the guard fails the branch emits `x509certMulti` carrying the whole
`certs` dict. -/
theorem idpCertificates_of_multi (p : SamlProvider)
    (hB : condB (certs p) = false) :
    idpCertificates p =
      some [("x509certMulti",
             .d [("encryption", .strs p.encryption_certs),
                 ("signing", .strs p.signing_certs)])] := by
  rw [idpCertificates, condA_certs_false, hB]
  simp

/-- Every successful run of the branch yields either a single `x509cert`
binding whose text is the head of the signing list, or the `x509certMulti`
binding carrying both lists. -/
theorem idpCertificates_cases (p : SamlProvider) (ic : PyDict)
    (h : idpCertificates p = some ic) :
    (∃ c, ic = [("x509cert", .s c)] ∧ p.signing_certs.head? = some c) ∨
      ic = [("x509certMulti",
             .d [("encryption", .strs p.encryption_certs),
                 ("signing", .strs p.signing_certs)])] := by
  rw [idpCertificates, condA_certs_false, hasKey_signing, certVal_signing] at h
  by_cases hB : condB (certs p) = true
  · rw [hB] at h
    simp only [Bool.false_or, if_true] at h
    cases hs : p.signing_certs with
    | nil =>
      rw [hs] at h
      cases h
    | cons c rest =>
      rw [hs] at h
      left
      exact ⟨c, by cases h; rfl, by simp [hs]⟩
  · rw [Bool.not_eq_true] at hB
    rw [hB] at h
    simp only [Bool.false_or, if_false] at h
    right
    cases h
    rfl

/-- Any successful run of the builder produces exactly the three merged
sections followed by the three appended top-level flags. -/
theorem get_provider_config_shape (p : SamlProvider) (defaults cfg : PyDict)
    (h : get_provider_config p defaults = some cfg) :
    ∃ ic spBase secBase,
      idpCertificates p = some ic ∧
      asDict ((dlookup defaults "sp").getD (.d [])) = some spBase ∧
      asDict ((dlookup defaults "security").getD (.d [])) = some secBase ∧
      cfg =
        [("idp", .d (dictUnion
            [("entityId", .s p.idp_issuer),
             ("singleSignOnService",
              .d [("url", .s p.idp_sso_url), ("binding", .s p.idp_sso_binding)])] ic)),
         ("sp", .d (dictUnion spBase (spOverlay p))),
         ("security", .d (dictUnion secBase (securityOverlay p))),
         ("debug", .b p.debug),
         ("lowercase_urlencoding", .b p.lowercase_urlencoding),
         ("idp_initiated_auth", .b p.idp_initiated_auth)] := by
  rw [get_provider_config] at h
  split at h
  · cases h
  · rename_i ic hic
    split at h
    · cases h
    · rename_i spBase hsp
      split at h
      · cases h
      · rename_i secBase hsec
        cases h
        exact ⟨ic, spBase, secBase, hic, hsp, hsec, rfl⟩

/-- If the union's lookup of a key succeeds, one of the operands binds the
key. -/
theorem dlookup_dictUnion_isSome {a b : PyDict} {k : String}
    (h : (dlookup (dictUnion a b) k).isSome = true) :
    (dlookup a k).isSome = true ∨ (dlookup b k).isSome = true := by
  cases hb : dlookup b k with
  | some v =>
    right
    simp [hb]
  | none =>
    left
    rw [dlookup_dictUnion_left hb] at h
    exact h

/-- C1: the spec claims a provider with exactly one signing certificate and
no encryption certificates (scenario A) gets the single-certificate field
`x509cert`.  The code disagrees: because the `certs` dict literal always
carries both keys, the `len(certs) == 1` disjunct never fires, and at the
scenario-A input the builder emits `x509certMulti` with no `x509cert` key
in the `idp` section. -/
theorem C1_scenario_A_code_emits_multi :
    ∃ cfg idp, get_provider_config providerA defaultsW = some cfg ∧
      dlookup cfg "idp" = some (.d idp) ∧
      idp =
        [("entityId", .s "https://idp.example/metadata"),
         ("singleSignOnService",
          .d [("url", .s "https://idp.example/sso"), ("binding", .s "HTTP-POST")]),
         ("x509certMulti",
          .d [("encryption", .strs []), ("signing", .strs ["CERTA"])])] ∧
      dlookup idp "x509cert" = none :=
  ⟨_, _, rfl, rfl, rfl, rfl⟩

/-- C2: when the signing and encryption lists each hold exactly one
certificate and the two texts are identical, the `idp` section carries
`x509cert` with that shared text and no `x509certMulti` key. -/
theorem C2_shared_cert_deduplicated (p : SamlProvider) (defaults cfg : PyDict)
    (c : String) (hs : p.signing_certs = [c]) (he : p.encryption_certs = [c])
    (h : get_provider_config p defaults = some cfg) :
    ∃ idp, dlookup cfg "idp" = some (.d idp) ∧
      dlookup idp "x509cert" = some (.s c) ∧
      dlookup idp "x509certMulti" = none := by
  obtain ⟨ic, spBase, secBase, hic, -, -, hcfg⟩ :=
    get_provider_config_shape p defaults cfg h
  rw [idpCertificates_of_single p c hs he] at hic
  cases hic
  subst hcfg
  refine ⟨_, rfl, ?_, ?_⟩
  · exact dlookup_dictUnion_right (by simp [dlookup])
  · rw [dlookup_dictUnion_left (by simp [dlookup])]
    simp [dlookup]

/-- C3: with both lists empty, more than one certificate in either list, or
one certificate in each with different texts, the `idp` section carries
`x509certMulti` whose `signing` and `encryption` slots are exactly the two
input lists, and no `x509cert` key. -/
theorem C3_multi_cert_field (p : SamlProvider) (defaults cfg : PyDict)
    (hcase : (p.signing_certs = [] ∧ p.encryption_certs = []) ∨
      1 < p.signing_certs.length ∨ 1 < p.encryption_certs.length ∨
      (∃ a b, p.signing_certs = [a] ∧ p.encryption_certs = [b] ∧ a ≠ b))
    (h : get_provider_config p defaults = some cfg) :
    ∃ idp, dlookup cfg "idp" = some (.d idp) ∧
      dlookup idp "x509certMulti" =
        some (.d [("encryption", .strs p.encryption_certs),
                  ("signing", .strs p.signing_certs)]) ∧
      dlookup idp "x509cert" = none := by
  obtain ⟨ic, spBase, secBase, hic, -, -, hcfg⟩ :=
    get_provider_config_shape p defaults cfg h
  have hB : condB (certs p) = false := by
    rw [Bool.eq_false_iff]
    intro hB
    rw [condB_iff] at hB
    obtain ⟨h1, h2, h3⟩ := hB
    rcases hcase with ⟨ha, hb⟩ | hlen | hlen | ⟨a, b, ha, hb, hne⟩
    · rw [ha] at h1
      simp at h1
    · omega
    · omega
    · rw [ha, hb] at h3
      exact hne h3
  rw [idpCertificates_of_multi p hB] at hic
  cases hic
  subst hcfg
  refine ⟨_, rfl, ?_, ?_⟩
  · exact dlookup_dictUnion_right (by simp [dlookup])
  · rw [dlookup_dictUnion_left (by simp [dlookup])]
    simp [dlookup]

/-- C5: for every provider and defaults template, the `idp` section binds
`entityId` to `idp_issuer` and `singleSignOnService` to the dict with the
provider's SSO URL and binding. -/
theorem C5_idp_identity_fields (p : SamlProvider) (defaults cfg : PyDict)
    (h : get_provider_config p defaults = some cfg) :
    ∃ idp, dlookup cfg "idp" = some (.d idp) ∧
      dlookup idp "entityId" = some (.s p.idp_issuer) ∧
      dlookup idp "singleSignOnService" =
        some (.d [("url", .s p.idp_sso_url), ("binding", .s p.idp_sso_binding)]) := by
  obtain ⟨ic, spBase, secBase, hic, -, -, hcfg⟩ :=
    get_provider_config_shape p defaults cfg h
  have hcases := idpCertificates_cases p ic hic
  have hicEntityId : dlookup ic "entityId" = none := by
    rcases hcases with ⟨c, hc, -⟩ | hc <;> rw [hc] <;> simp [dlookup]
  have hicSso : dlookup ic "singleSignOnService" = none := by
    rcases hcases with ⟨c, hc, -⟩ | hc <;> rw [hc] <;> simp [dlookup]
  subst hcfg
  refine ⟨_, rfl, ?_, ?_⟩
  · rw [dlookup_dictUnion_left hicEntityId]
    simp [dlookup]
  · rw [dlookup_dictUnion_left hicSso]
    simp [dlookup]

theorem dlookup_pair_isSome {α : Type} {k k1 : String} {v1 : α}
    (h : (dlookup [(k1, v1)] k).isSome = true) : k = k1 := by
  by_cases hk : k1 = k
  · exact hk.symm
  · simp [dlookup, hk] at h

theorem dlookup_two_isSome {α : Type} {k k1 k2 : String} {v1 v2 : α}
    (h : (dlookup [(k1, v1), (k2, v2)] k).isSome = true) : k = k1 ∨ k = k2 := by
  by_cases h1 : k1 = k
  · exact Or.inl h1.symm
  · by_cases h2 : k2 = k
    · exact Or.inr h2.symm
    · simp [dlookup, h1, h2] at h

/-- C6: the `idp` section holds exactly one of `x509cert` and
`x509certMulti` — never both, never neither — and takes nothing from the
defaults: every key it binds is one of the four provider-derived keys, so
no key of the defaults' `idp` sub-object survives into it. -/
theorem C6_idp_fully_replaced (p : SamlProvider) (defaults cfg : PyDict)
    (h : get_provider_config p defaults = some cfg) :
    ∃ idp, dlookup cfg "idp" = some (.d idp) ∧
      (dlookup idp "x509cert").isSome = !(dlookup idp "x509certMulti").isSome ∧
      ∀ k, (dlookup idp k).isSome = true →
        k = "entityId" ∨ k = "singleSignOnService" ∨
          k = "x509cert" ∨ k = "x509certMulti" := by
  obtain ⟨ic, spBase, secBase, hic, -, -, hcfg⟩ :=
    get_provider_config_shape p defaults cfg h
  have hcases := idpCertificates_cases p ic hic
  subst hcfg
  refine ⟨_, rfl, ?_, ?_⟩
  · rcases hcases with ⟨c, hc, -⟩ | hc <;> subst hc
    · rw [dlookup_dictUnion_right (v := JVal.s c) (by simp [dlookup]),
        dlookup_dictUnion_left (by simp [dlookup])]
      simp [dlookup]
    · rw [dlookup_dictUnion_left (by simp [dlookup]),
        dlookup_dictUnion_right (v :=
          JVal.d [("encryption", .strs p.encryption_certs),
                  ("signing", .strs p.signing_certs)]) (by simp [dlookup])]
      simp [dlookup]
  · intro k hk
    rcases dlookup_dictUnion_isSome hk with hbase | hics
    · rcases dlookup_two_isSome hbase with h1 | h1
      · exact Or.inl h1
      · exact Or.inr (Or.inl h1)
    · rcases hcases with ⟨c, hc, -⟩ | hc <;> rw [hc] at hics
      · exact Or.inr (Or.inr (Or.inl (dlookup_pair_isSome hics)))
      · exact Or.inr (Or.inr (Or.inr (dlookup_pair_isSome hics)))

/-- C7: the `sp` section is the defaults' `sp` sub-object (empty when
absent) overlaid with the three provider-derived bindings; every other key
of that sub-object passes through unchanged. -/
theorem C7_sp_overlay (p : SamlProvider) (defaults cfg spB : PyDict)
    (hspB : (dlookup defaults "sp").getD (.d []) = .d spB)
    (h : get_provider_config p defaults = some cfg) :
    ∃ sp, dlookup cfg "sp" = some (.d sp) ∧
      dlookup sp "entityId" = some (.s "") ∧
      dlookup sp "NameIDFormat" = some (.s p.nameidformat) ∧
      dlookup sp "assertionConsumerService" =
        some (.d [("url", .s ""), ("binding", .s p.sp_acs_binding)]) ∧
      ∀ k, k ≠ "entityId" → k ≠ "NameIDFormat" → k ≠ "assertionConsumerService" →
        dlookup sp k = dlookup spB k := by
  obtain ⟨ic, spBase, secBase, -, hsp, -, hcfg⟩ :=
    get_provider_config_shape p defaults cfg h
  rw [hspB] at hsp
  simp only [asDict, Option.some.injEq] at hsp
  subst hsp
  subst hcfg
  refine ⟨_, rfl, ?_, ?_, ?_, ?_⟩
  · exact dlookup_dictUnion_right (by simp [spOverlay, dlookup])
  · exact dlookup_dictUnion_right (by simp [spOverlay, dlookup])
  · exact dlookup_dictUnion_right (by simp [spOverlay, dlookup])
  · intro k h1 h2 h3
    rw [dlookup_dictUnion_left
      (by simp [spOverlay, dlookup, Ne.symm h1, Ne.symm h2, Ne.symm h3])]

/-- C8: the `security` section is the defaults' `security` sub-object
(empty when absent) overlaid with the three `want*` flags; every other key
of that sub-object passes through unchanged. -/
theorem C8_security_overlay (p : SamlProvider) (defaults cfg secB : PyDict)
    (hsecB : (dlookup defaults "security").getD (.d []) = .d secB)
    (h : get_provider_config p defaults = some cfg) :
    ∃ sec, dlookup cfg "security" = some (.d sec) ∧
      dlookup sec "wantMessagesSigned" = some (.b p.sec_want_messages_signed) ∧
      dlookup sec "wantAssertionsSigned" = some (.b p.sec_want_assertions_signed) ∧
      dlookup sec "wantAssertionsEncrypted" = some (.b p.sec_want_assertions_encrypted) ∧
      ∀ k, k ≠ "wantMessagesSigned" → k ≠ "wantAssertionsSigned" →
        k ≠ "wantAssertionsEncrypted" → dlookup sec k = dlookup secB k := by
  obtain ⟨ic, spBase, secBase, -, -, hsec, hcfg⟩ :=
    get_provider_config_shape p defaults cfg h
  rw [hsecB] at hsec
  simp only [asDict, Option.some.injEq] at hsec
  subst hsec
  subst hcfg
  refine ⟨_, rfl, ?_, ?_, ?_, ?_⟩
  · exact dlookup_dictUnion_right (by simp [securityOverlay, dlookup])
  · exact dlookup_dictUnion_right (by simp [securityOverlay, dlookup])
  · exact dlookup_dictUnion_right (by simp [securityOverlay, dlookup])
  · intro k h1 h2 h3
    rw [dlookup_dictUnion_left
      (by simp [securityOverlay, dlookup, Ne.symm h1, Ne.symm h2, Ne.symm h3])]

/-- C9: the top-level key set of any successful output is exactly `idp`,
`sp`, `security`, `debug`, `lowercase_urlencoding`, `idp_initiated_auth`,
in that order — the builder replaces the copied defaults with a fresh
top-level dict, so no other top-level key of the defaults survives. -/
theorem C9_toplevel_keys (p : SamlProvider) (defaults cfg : PyDict)
    (h : get_provider_config p defaults = some cfg) :
    cfg.map Prod.fst =
      ["idp", "sp", "security", "debug", "lowercase_urlencoding",
       "idp_initiated_auth"] := by
  obtain ⟨ic, spBase, secBase, -, -, -, hcfg⟩ :=
    get_provider_config_shape p defaults cfg h
  subst hcfg
  rfl

/-- C10: the `certs` dict always carries both the `signing` and the
`encryption` key, the `len(certs) == 1` disjunct of the guard is false for
every provider, and whenever the branch emits `x509cert` its value is
`certs["signing"][0]` — the `else` arm reading the encryption list is
unreachable. -/
theorem C10_first_disjunct_dead (p : SamlProvider) :
    hasKey (certs p) "signing" = true ∧ hasKey (certs p) "encryption" = true ∧
    condA (certs p) = false ∧
    ∀ ic c, idpCertificates p = some ic →
      dlookup ic "x509cert" = some (.s c) → p.signing_certs.head? = some c := by
  refine ⟨hasKey_signing p, hasKey_encryption p, condA_certs_false p, ?_⟩
  intro ic c hic hx
  rcases idpCertificates_cases p ic hic with ⟨c', hc, hhead⟩ | hc
  · rw [hc] at hx
    simp [dlookup] at hx
    rw [hhead, hx]
  · rw [hc] at hx
    simp [dlookup] at hx

/-- Witness for C2 at scenario B (both lists `["CERTA"]`). -/
theorem C2_witness :
    ∃ idp, dlookup cfgB "idp" = some (.d idp) ∧
      dlookup idp "x509cert" = some (.s "CERTA") ∧
      dlookup idp "x509certMulti" = none :=
  C2_shared_cert_deduplicated providerB defaultsW cfgB "CERTA" rfl rfl rfl

/-- Witness for C3 at scenario C (two signing certificates, none for
encryption). -/
theorem C3_witness :
    ∃ idp, dlookup cfgC "idp" = some (.d idp) ∧
      dlookup idp "x509certMulti" =
        some (.d [("encryption", .strs providerC.encryption_certs),
                  ("signing", .strs providerC.signing_certs)]) ∧
      dlookup idp "x509cert" = none :=
  C3_multi_cert_field providerC defaultsW cfgC (Or.inr (Or.inl (by decide))) rfl

/-- Witness for C5 at scenario A. -/
theorem C5_witness :
    ∃ idp, dlookup cfgA "idp" = some (.d idp) ∧
      dlookup idp "entityId" = some (.s providerA.idp_issuer) ∧
      dlookup idp "singleSignOnService" =
        some (.d [("url", .s providerA.idp_sso_url),
                  ("binding", .s providerA.idp_sso_binding)]) :=
  C5_idp_identity_fields providerA defaultsW cfgA rfl

/-- Witness for C6 at scenario B. -/
theorem C6_witness :
    ∃ idp, dlookup cfgB "idp" = some (.d idp) ∧
      (dlookup idp "x509cert").isSome = !(dlookup idp "x509certMulti").isSome ∧
      ∀ k, (dlookup idp k).isSome = true →
        k = "entityId" ∨ k = "singleSignOnService" ∨
          k = "x509cert" ∨ k = "x509certMulti" :=
  C6_idp_fully_replaced providerB defaultsW cfgB rfl

/-- Witness for C7 at scenario A with a defaults template whose `sp`
sub-dict binds `keep`. -/
theorem C7_witness :
    ∃ sp, dlookup cfgA "sp" = some (.d sp) ∧
      dlookup sp "entityId" = some (.s "") ∧
      dlookup sp "NameIDFormat" = some (.s providerA.nameidformat) ∧
      dlookup sp "assertionConsumerService" =
        some (.d [("url", .s ""), ("binding", .s providerA.sp_acs_binding)]) ∧
      ∀ k, k ≠ "entityId" → k ≠ "NameIDFormat" → k ≠ "assertionConsumerService" →
        dlookup sp k = dlookup [("keep", JVal.s "v")] k :=
  C7_sp_overlay providerA defaultsW cfgA [("keep", .s "v")] rfl rfl

/-- Witness for C8 at scenario A with a defaults template whose `security`
sub-dict binds `authnRequestsSigned`. -/
theorem C8_witness :
    ∃ sec, dlookup cfgA "security" = some (.d sec) ∧
      dlookup sec "wantMessagesSigned" = some (.b providerA.sec_want_messages_signed) ∧
      dlookup sec "wantAssertionsSigned" = some (.b providerA.sec_want_assertions_signed) ∧
      dlookup sec "wantAssertionsEncrypted" =
        some (.b providerA.sec_want_assertions_encrypted) ∧
      ∀ k, k ≠ "wantMessagesSigned" → k ≠ "wantAssertionsSigned" →
        k ≠ "wantAssertionsEncrypted" →
        dlookup sec k = dlookup [("authnRequestsSigned", JVal.b true)] k :=
  C8_security_overlay providerA defaultsW cfgA [("authnRequestsSigned", .b true)] rfl rfl

/-- Witness for C9 at scenario A: `defaultsW`'s extra top-level key
`strict` is gone. -/
theorem C9_witness :
    cfgA.map Prod.fst =
      ["idp", "sp", "security", "debug", "lowercase_urlencoding",
       "idp_initiated_auth"] :=
  C9_toplevel_keys providerA defaultsW cfgA rfl

/-- Witness for C10 at scenario B, instantiating the emitted `x509cert`
binding. -/
theorem C10_witness :
    hasKey (certs providerB) "signing" = true ∧
    hasKey (certs providerB) "encryption" = true ∧
    condA (certs providerB) = false ∧
    providerB.signing_certs.head? = some "CERTA" := by
  obtain ⟨h1, h2, h3, h4⟩ := C10_first_disjunct_dead providerB
  exact ⟨h1, h2, h3, h4 [("x509cert", .s "CERTA")] "CERTA" rfl rfl⟩

/-!
Frame lemmas for the heap model: every step of the heap builder only
allocates fresh cells or mutates cells allocated during the call, so the
part of the heap that existed before the call is untouched.
-/

theorem HExt_refl (m : Nat) (H : Heap) : HExt m H H :=
  ⟨le_refl _, fun _ _ => rfl⟩

theorem HExt_trans {m : Nat} {H1 H2 H3 : Heap}
    (h12 : HExt m H1 H2) (h23 : HExt m H2 H3) : HExt m H1 H3 :=
  ⟨le_trans h12.1 h23.1, fun i hi => (h23.2 i hi).trans (h12.2 i hi)⟩

theorem HExt_append (m : Nat) (H t : Heap) (hm : m ≤ H.length) :
    HExt m H (H ++ t) := by
  refine ⟨by simp, fun i hi => ?_⟩
  rw [List.getElem?_append, if_pos (lt_of_lt_of_le hi hm)]

theorem HExt_set (m : Nat) (H : Heap) (a : Nat) (d : HDict) (ha : m ≤ a) :
    HExt m H (heapSet H a d) := by
  refine ⟨by simp [heapSet], fun i hi => ?_⟩
  exact List.getElem?_set_ne (by omega)


theorem setItemH_HExt {m : Nat} {H : Heap} {a : Nat} {k : String} {v : PyVal}
    {H2 : Heap} (ha : m ≤ a) (h : setItemH H a k v = some H2) : HExt m H H2 := by
  unfold setItemH at h
  split at h
  · cases h
  · cases h
    exact HExt_set m H a _ ha

theorem setdefaultH_HExt {m : Nat} {H : Heap} {a : Nat} {k : String} {v : PyVal}
    {H2 : Heap} {w : PyVal} (ha : m ≤ a)
    (h : setdefaultH H a k v = some (H2, w)) : HExt m H H2 := by
  unfold setdefaultH at h
  split at h
  · cases h
  · split at h
    · cases h
      exact HExt_refl m H
    · cases h
      exact HExt_set m H a _ ha

theorem dcopy_extend :
    ∀ (n : Nat) (H : Heap) (w : PyVal ⊕ HDict) (H2 : Heap) (w2 : PyVal ⊕ HDict),
      dcopy n H w = some (H2, w2) → ∃ t, H2 = H ++ t := by
  intro n
  induction n with
  | zero =>
    intro H w H2 w2 h
    match w with
    | .inl (.vstr s) => cases h; exact ⟨[], by simp⟩
    | .inl (.vbool b) => cases h; exact ⟨[], by simp⟩
    | .inl (.vstrs l) => cases h; exact ⟨[], by simp⟩
    | .inr [] => cases h; exact ⟨[], by simp⟩
    | .inl (.vref a) =>
      have hz : dcopy 0 H (.inl (.vref a)) = none := rfl
      rw [hz] at h
      cases h
    | .inr ((k, v) :: rest) =>
      have hz : dcopy 0 H (.inr ((k, v) :: rest)) = none := rfl
      rw [hz] at h
      cases h
  | succ n ih =>
    intro H w H2 w2 h
    match w with
    | .inl (.vstr s) => cases h; exact ⟨[], by simp⟩
    | .inl (.vbool b) => cases h; exact ⟨[], by simp⟩
    | .inl (.vstrs l) => cases h; exact ⟨[], by simp⟩
    | .inr [] => cases h; exact ⟨[], by simp⟩
    | .inl (.vref a) =>
      rw [dcopy] at h
      split at h
      · cases h
      · split at h
        · rename_i H1 d1 hc
          cases h
          obtain ⟨t, ht⟩ := ih _ _ _ _ hc
          exact ⟨t ++ [d1], by rw [ht, List.append_assoc]⟩
        · cases h
    | .inr ((k, v) :: rest) =>
      rw [dcopy] at h
      split at h
      · rename_i H1 v1 hc1
        split at h
        · rename_i Hx rest1 hc2
          cases h
          obtain ⟨t1, ht1⟩ := ih _ _ _ _ hc1
          obtain ⟨t2, ht2⟩ := ih _ _ _ _ hc2
          exact ⟨t1 ++ t2, by rw [ht2, ht1, List.append_assoc]⟩
        · cases h
      · cases h

theorem dcopy_ref_shape {n : Nat} {H : Heap} {a : Nat} {H1 : Heap}
    {w1 : PyVal ⊕ HDict} (h : dcopy n H (.inl (.vref a)) = some (H1, w1)) :
    ∃ c, w1 = .inl (.vref c) ∧ H.length ≤ c := by
  cases n with
  | zero =>
    have hz : dcopy 0 H (.inl (.vref a)) = none := rfl
    rw [hz] at h
    cases h
  | succ n =>
    rw [dcopy] at h
    split at h
    · cases h
    · split at h
      · rename_i Hc d1 hc
        cases h
        obtain ⟨t, ht⟩ := dcopy_extend n H _ _ _ hc
        exact ⟨Hc.length, rfl, by rw [ht]; simp⟩
      · cases h

theorem deepcopyVal_extend {n : Nat} {H : Heap} {v : PyVal} {H2 : Heap} {v2 : PyVal}
    (h : deepcopyVal n H v = some (H2, v2)) : ∃ t, H2 = H ++ t := by
  unfold deepcopyVal at h
  split at h
  · rename_i H1 v1 hc
    cases h
    exact dcopy_extend n H (.inl v) H2 (.inl v2) hc
  · cases h

theorem deepcopyVal_ref_addr {n : Nat} {H : Heap} {a : Nat} {H2 : Heap} {v2 : PyVal}
    (h : deepcopyVal n H (.vref a) = some (H2, v2)) :
    ∃ c, v2 = .vref c ∧ H.length ≤ c := by
  unfold deepcopyVal at h
  split at h
  · rename_i H1 v1 hc
    cases h
    obtain ⟨c, hcv, hle⟩ := dcopy_ref_shape hc
    injection hcv with hcv'
    exact ⟨c, hcv', hle⟩
  · cases h

/-- Reading back an object graph only depends on the cells the original
heap defines: any heap agreeing on those cells reads back the same
snapshot. -/
theorem rback_mono :
    ∀ (n : Nat) (H H' : Heap) (w : PyVal ⊕ HDict) (r : Tree ⊕ List (String × Tree)),
      (∀ i, i < H.length → H'[i]? = H[i]?) →
      rback n H w = some r → rback n H' w = some r := by
  intro n
  induction n with
  | zero =>
    intro H H' w r hag h
    match w with
    | .inl (.vstr s) => exact h
    | .inl (.vbool b) => exact h
    | .inl (.vstrs l) => exact h
    | .inr [] => exact h
    | .inl (.vref a) =>
      have hz : rback 0 H (.inl (.vref a)) = none := rfl
      rw [hz] at h
      cases h
    | .inr ((k, v) :: rest) =>
      have hz : rback 0 H (.inr ((k, v) :: rest)) = none := rfl
      rw [hz] at h
      cases h
  | succ n ih =>
    intro H H' w r hag h
    match w with
    | .inl (.vstr s) => exact h
    | .inl (.vbool b) => exact h
    | .inl (.vstrs l) => exact h
    | .inr [] => exact h
    | .inl (.vref a) =>
      rw [rback] at h ⊢
      obtain ⟨d, hg, h⟩ := Option.bind_eq_some.mp h
      obtain ⟨rd, hrd, h⟩ := Option.bind_eq_some.mp h
      have ha : a < H.length := by
        unfold heapGet at hg
        exact (List.getElem?_eq_some.mp hg).1
      have hg' : heapGet H' a = some d := by
        unfold heapGet at hg ⊢
        rw [hag a ha]
        exact hg
      simp only [hg', Option.some_bind]
      simp only [ih H H' _ _ hag hrd, Option.some_bind]
      exact h
    | .inr ((k, v) :: rest) =>
      rw [rback] at h ⊢
      obtain ⟨rv, hrv, h⟩ := Option.bind_eq_some.mp h
      obtain ⟨rr, hrr, h⟩ := Option.bind_eq_some.mp h
      simp only [ih H H' _ _ hag hrv, Option.some_bind]
      simp only [ih H H' _ _ hag hrr, Option.some_bind]
      exact h

/-- Snapshot stability for a single value. -/
theorem readbackVal_mono {n : Nat} {H H' : Heap} {v : PyVal} {t : Tree}
    (hag : ∀ i, i < H.length → H'[i]? = H[i]?)
    (h : readbackVal n H v = some t) : readbackVal n H' v = some t := by
  unfold readbackVal at h ⊢
  split at h
  · rename_i t' hr
    cases h
    rw [rback_mono n H H' _ _ hag hr]
  · cases h

/-- Lengths only grow under append. -/
theorem le_length_append {m : Nat} (H t : Heap) (hm : m ≤ H.length) :
    m ≤ (H ++ t).length := by
  rw [List.length_append]
  omega

theorem HExt_append2 {m : Nat} {H : Heap} (t1 t2 : Heap) (hm : m ≤ H.length) :
    HExt m H (H ++ t1 ++ t2) :=
  HExt_trans (HExt_append m H t1 hm)
    (HExt_append m _ t2 (le_length_append _ _ hm))

theorem HExt_append3 {m : Nat} {H : Heap} (t1 t2 t3 : Heap) (hm : m ≤ H.length) :
    HExt m H (H ++ t1 ++ t2 ++ t3) :=
  HExt_trans (HExt_append2 t1 t2 hm)
    (HExt_append m _ t3 (le_length_append _ _ (le_length_append _ _ hm)))

theorem get_provider_config_heap_HExt (p : SamlProvider) (fuel : Nat) (H0 : Heap)
    (dAddr : Nat) (Hf : Heap) (r : Nat)
    (h : get_provider_config_heap p fuel H0 dAddr = some (Hf, r)) :
    HExt H0.length H0 Hf := by
  rw [get_provider_config_heap] at h
  simp only [heapAlloc] at h
  split at h
  · cases h
  · rename_i h3 hbr
    have hbrExt : HExt H0.length
        (H0 ++ [[("encryption", PyVal.vstrs p.encryption_certs),
                 ("signing", PyVal.vstrs p.signing_certs)]] ++ [[]]) h3 := by
      split at hbr
      · split at hbr
        · split at hbr
          · exact setItemH_HExt (le_length_append _ _ (le_refl _)) hbr
          · cases hbr
        · split at hbr
          · exact setItemH_HExt (le_length_append _ _ (le_refl _)) hbr
          · cases hbr
      · exact setItemH_HExt (le_length_append _ _ (le_refl _)) hbr
    have hext3 : HExt H0.length H0 h3 :=
      HExt_trans (HExt_append2 _ _ (le_refl _)) hbrExt
    clear hbr hbrExt
    split at h
    all_goals try (cases h)
    rename_i h4 cAddr hdc
    obtain ⟨t4, h4eq⟩ := deepcopyVal_extend hdc
    obtain ⟨c, hceq, hcge⟩ := deepcopyVal_ref_addr hdc
    injection hceq with hceq'
    subst hceq'
    have hcAddr : H0.length ≤ cAddr := le_trans hext3.1 hcge
    have hext4 : HExt H0.length H0 h4 := by
      rw [h4eq]
      exact HExt_trans hext3 (HExt_append _ _ _ hext3.1)
    split at h
    · cases h
    · rename_i ic hgic
      split at h
      all_goals try (cases h)
      rename_i h8 spBaseAddr hsd1
      have hext8 : HExt H0.length H0 h8 :=
        HExt_trans hext4
          (HExt_trans (HExt_append3 _ _ _ hext4.1) (setdefaultH_HExt hcAddr hsd1))
      split at h
      · cases h
      · rename_i spBase hgsp
        split at h
        all_goals try (cases h)
        rename_i h12 secBaseAddr hsd2
        have hext12 : HExt H0.length H0 h12 :=
          HExt_trans hext8
            (HExt_trans (HExt_append3 _ _ _ hext8.1) (setdefaultH_HExt hcAddr hsd2))
        split at h
        · cases h
        · rename_i secBase hgsec
          split at h
          · cases h
          · rename_i h15 hsi1
            split at h
            · cases h
            · rename_i h16 hsi2
              split at h
              · cases h
              · rename_i h17 hsi3
                cases h
                have hcfg : H0.length ≤ (h12 ++ [dictUnion secBase
                    [("wantMessagesSigned", PyVal.vbool p.sec_want_messages_signed),
                     ("wantAssertionsSigned", PyVal.vbool p.sec_want_assertions_signed),
                     ("wantAssertionsEncrypted", PyVal.vbool p.sec_want_assertions_encrypted)]]).length :=
                  le_length_append _ _ hext12.1
                have hext15 : HExt H0.length H0 h15 :=
                  HExt_trans hext12
                    (HExt_trans (HExt_append2 _ _ hext12.1) (setItemH_HExt hcfg hsi1))
                have hext16 : HExt H0.length H0 h16 :=
                  HExt_trans hext15 (setItemH_HExt hcfg hsi2)
                exact HExt_trans hext16 (setItemH_HExt hcfg hsi3)

/-- C4: running the builder never changes the object graph of the
`defaults` argument: the snapshot read back from the defaults address is
identical before and after any successful run, because the builder
deep-copies the defaults before any mutation and every mutation hits an
address allocated during the call. -/
theorem C4_defaults_preserved (p : SamlProvider) (fuel : Nat) (H0 : Heap)
    (dAddr : Nat) (Hf : Heap) (r : Nat) (n : Nat) (t : Tree)
    (hrun : get_provider_config_heap p fuel H0 dAddr = some (Hf, r))
    (hrb : readbackVal n H0 (.vref dAddr) = some t) :
    readbackVal n Hf (.vref dAddr) = some t := by
  have hext := get_provider_config_heap_HExt p fuel H0 dAddr Hf r hrun
  exact readbackVal_mono (fun i hi => hext.2 i hi) hrb

/-- Witness for C4: a concrete run over `heapW` (a defaults template with a
nested `sp` object) reads back unchanged. -/
theorem C4_witness : readbackVal 10 runW.1 (.vref 0) = some treeW :=
  C4_defaults_preserved providerA 20 heapW 0 runW.1 runW.2 10 treeW (by rfl) (by rfl)

end Saml2ProAuth
